import Mathlib

/-!
Shallow embedding of the watsonx repository's core server modules
(`src/server/scanner.ts`, `src/server/watsonx.ts` with its embedded
decision module, and `src/server/scheduler.ts`), together with proofs
about the specified behaviour.

Conventions of the embedding:
* TypeScript strings are Lean `String` (ASCII throughout the repository,
  so code-unit versus code-point distinctions do not arise where strings
  are sliced).
* JavaScript `BigInt` values produced from the hex / decimal literals in
  the code are Lean `Nat` (they are never negative here); differences of
  them are `Int`.
* A JavaScript function that can throw is modelled as `Except`; a
  `try`/`catch` is the corresponding `match` on the `Except` value.
* A JavaScript `Map` is an insertion-ordered association list, exactly
  as `Map` iteration order is specified.
-/

/-! ## Scanner data model (src/server/scanner.ts) -/

/-- The closed set of finding kinds of `ScanResult.type` in scanner.ts
(`"nonce_reuse" | "polynomial_attack" | "weak_nonce"`; the spec names
them nonce-reuse, polynomial-attack and weak-nonce). -/
inductive ScanType
  | nonce_reuse
  | polynomial_attack
  | weak_nonce
deriving DecidableEq

/-- The `Signature` interface of scanner.ts: `r` and `s` are hex strings,
`v` a recovery id, `hash` the transaction hash. -/
structure Signature where
  r : String
  s : String
  v : Nat
  hash : String
deriving DecidableEq

/-- The `ScanResult` interface of scanner.ts. -/
structure ScanResult where
  type : ScanType
  details : String
  severity : Nat
deriving DecidableEq

/-- Value of a hexadecimal digit character, `none` for anything else. -/
def hexDigitVal? (c : Char) : Option Nat :=
  if '0' ≤ c ∧ c ≤ '9' then some (c.toNat - '0'.toNat)
  else if 'a' ≤ c ∧ c ≤ 'f' then some (c.toNat - 'a'.toNat + 10)
  else if 'A' ≤ c ∧ c ≤ 'F' then some (c.toNat - 'A'.toNat + 10)
  else none

/-- Value of a decimal digit character, `none` for anything else. -/
def decDigitVal? (c : Char) : Option Nat :=
  if '0' ≤ c ∧ c ≤ '9' then some (c.toNat - '0'.toNat) else none

/-- Horner evaluation of a digit list in the given base; `none` as soon
as a character is not a digit of the base. -/
def digitsVal (base : Nat) (dv : Char → Option Nat) (acc : Nat) :
    List Char → Option Nat
  | [] => some acc
  | c :: cs =>
    match dv c with
    | some d => digitsVal base dv (acc * base + d) cs
    | none => none

/-- Model of the JavaScript `BigInt(string)` conversion on the numeral
forms appearing in this repository: a `0x`/`0X`-prefixed hex numeral or a
plain decimal numeral (an empty string converts to `0n`, as in JS).
`none` models the `SyntaxError` thrown on any other input. -/
def jsBigInt? (s : String) : Option Nat :=
  match s.data with
  | '0' :: 'x' :: cs =>
    match cs with
    | [] => none
    | _ => digitsVal 16 hexDigitVal? 0 cs
  | '0' :: 'X' :: cs =>
    match cs with
    | [] => none
    | _ => digitsVal 16 hexDigitVal? 0 cs
  | [] => some 0
  | cs => digitsVal 10 decDigitVal? 0 cs

/-- Number of signatures in `sigs` whose `r` field equals `r` (the size
of the `r`-group, used to state the nonce-reuse claims). -/
def countR (r : String) (sigs : List Signature) : Nat :=
  (sigs.filter (fun sig => decide (sig.r = r))).length

namespace Scanner

/-- Detail string built by `Scanner.nonceReuse` for a repeated `r` value:
the `r` truncated to its first 10 characters (`r.substring(0, 10)`) and
the group size. -/
def nonceDetail (r : String) (count : Nat) : String :=
  "Found " ++ toString count ++ " signatures with same R value (" ++
    r.take 10 ++ "...). Private key recovery is possible."

/-- One step of filling the `rValues` map of `Scanner.nonceReuse`:
increment the entry for key `r` in place, or append a fresh entry with
count 1 (JS `Map` keeps insertion order and updates in place). -/
def bump : List (String × Nat) → String → List (String × Nat)
  | [], r => [(r, 1)]
  | (k, c) :: rest, r =>
    if k = r then (k, c + 1) :: rest else (k, c) :: bump rest r

/-- The `rValues` map of `Scanner.nonceReuse` after the counting loop:
insertion-ordered association list from `r` values to their counts. -/
def countsOf (sigs : List Signature) : List (String × Nat) :=
  sigs.foldl (fun m sig => bump m sig.r) []

/-- `Scanner.nonceReuse`: iterate the counts map in order and report the
first `r` group of size greater than 1, severity 95. -/
def nonceReuse (sigs : List Signature) : Option ScanResult :=
  match (countsOf sigs).find? (fun p => decide (1 < p.2)) with
  | some p => some ⟨ScanType.nonce_reuse, nonceDetail p.1 p.2, 95⟩
  | none => none

/-- The `rInts` array: `sigs.map((s) => BigInt(s.r))` evaluated left to
right; a conversion failure is the thrown `SyntaxError`, which
propagates. -/
def rIntsOf : List Signature → Except Unit (List Nat)
  | [] => Except.ok []
  | sig :: rest =>
    match jsBigInt? sig.r with
    | some n =>
      match rIntsOf rest with
      | Except.ok ns => Except.ok (n :: ns)
      | Except.error e => Except.error e
    | none => Except.error ()

/-- Differences between consecutive elements, exactly the `diffs` /
`secondDiffs` loops of `Scanner.polynomialAttack`. -/
def diffsOf : List Int → List Int
  | a :: b :: rest => (b - a) :: diffsOf (b :: rest)
  | _ => []

/-- The per-difference predicate of `Scanner.polynomialAttack`:
`d === 0n || (d > 0n && d < 1000n)`, i.e. `d` lies in `[0, 1000)`. -/
def polyOk (d : Int) : Bool := decide (d = 0 ∨ (0 < d ∧ d < 1000))

/-- Detail string of a polynomial-attack finding. -/
def polyDetail : String :=
  "Detected polynomial nonce generation pattern. Nonce sequence is predictable."

/-- `Scanner.polynomialAttack`: with at least 3 signatures, convert the
`r` values to integers, take first and second differences in list order,
and report severity 85 when every second difference satisfies `polyOk`. -/
def polynomialAttack (sigs : List Signature) : Except Unit (Option ScanResult) :=
  if sigs.length < 3 then Except.ok none
  else
    match rIntsOf sigs with
    | Except.error e => Except.error e
    | Except.ok rs =>
      let diffs := diffsOf (rs.map Int.ofNat)
      if 2 ≤ diffs.length then
        if (diffsOf diffs).all polyOk then
          Except.ok (some ⟨ScanType.polynomial_attack, polyDetail, 85⟩)
        else Except.ok none
      else Except.ok none

/-- The `maxR` constant of `Scanner.weakNonce` (64 hex `F` digits, i.e.
`2^256 - 1`; the spec refers to it as the curve order). -/
def maxR : Nat :=
  0xFFFFFFFFFFFFFFFFFFFFFFFFFFFFFFFFFFFFFFFFFFFFFFFFFFFFFFFFFFFFFFFF

/-- Detail string of a weak-nonce finding. -/
def weakDetail (weakCount total : Nat) : String :=
  toString weakCount ++ " out of " ++ toString total ++
    " signatures use low-entropy nonces."

/-- The weak-r count of `Scanner.weakNonce`: signatures whose `r` value
is below `maxR / 1000` (BigInt division truncates, as `/` on `Nat`). -/
def weakCountOf (rs : List Nat) : Nat :=
  (rs.filter (fun r => decide (r < maxR / 1000))).length

/-- `Scanner.weakNonce`: report severity 70 when the weak-r count
exceeds 30% of the sample. The JS comparison `weakCount > sigs.length * 0.3`
uses the double nearest 0.3; for every list length `n` the rounded product
`fl(n * fl(0.3))` lies strictly between `3n/10 - 1` and `3n/10` or equals
`3n/10`, so comparison with an integer count coincides with the exact
rational comparison `10 * weakCount > 3 * n` embedded here. -/
def weakNonce (sigs : List Signature) : Except Unit (Option ScanResult) :=
  match rIntsOf sigs with
  | Except.error e => Except.error e
  | Except.ok rs =>
    if 10 * weakCountOf rs > 3 * sigs.length then
      Except.ok (some ⟨ScanType.weak_nonce, weakDetail (weakCountOf rs) sigs.length, 70⟩)
    else Except.ok none

/-- `Scanner.scan` on an already-extracted signature list: fewer than 2
signatures yield no finding; otherwise the checks run in the fixed order
`nonceReuse || polynomialAttack || weakNonce || null` (JS `||` takes the
first non-null result). -/
def scanSigs (sigs : List Signature) : Except Unit (Option ScanResult) :=
  if sigs.length < 2 then Except.ok none
  else
    match nonceReuse sigs with
    | some res => Except.ok (some res)
    | none =>
      match polynomialAttack sigs with
      | Except.error e => Except.error e
      | Except.ok (some res) => Except.ok (some res)
      | Except.ok none => weakNonce sigs

/-- The two hardcoded mock signatures of `Scanner.extractSignatures`
(identical `r`, differing `s`). -/
def mockSigs : List Signature :=
  [⟨"0x1234567890abcdef1234567890abcdef1234567890abcdef1234567890abcdef",
    "0xfedcba0987654321fedcba0987654321fedcba0987654321fedcba0987654321",
    27, "0xhash1"⟩,
   ⟨"0x1234567890abcdef1234567890abcdef1234567890abcdef1234567890abcdef",
    "0x9876543210fedcba9876543210fedcba9876543210fedcba9876543210fedcba",
    28, "0xhash2"⟩]

/-- `Scanner.extractSignatures`: the mock implementation ignores the
address and returns the two hardcoded signatures. -/
def extractSignatures (_addr : String) : List Signature := mockSigs

/-- `Scanner.scan`: extract signatures for the address, then run the
checks. -/
def scan (addr : String) : Except Unit (Option ScanResult) :=
  scanSigs (extractSignatures addr)

end Scanner

/-! ## Decision data model (decision module embedded in src/server/watsonx.ts) -/

/-- The priority tier `"H" | "M" | "L"` of `PrioritizationResult` and
`DecisionState`. -/
inductive Priority
  | H
  | M
  | L
deriving DecidableEq

/-- The `DecisionAction` union `"SCAN" | "DEEP" | "SLEEP"`. -/
inductive DecisionAction
  | SCAN
  | DEEP
  | SLEEP
deriving DecidableEq

/-- The `DecisionState` interface. Numeric fields are JS numbers; the
values flowing through the repository are integers, embedded as `Int`. -/
structure DecisionState where
  address : String
  priority : Priority
  risk : Int
  depth : Int
  lastScanned : Option String
deriving DecidableEq

/-- The `DecisionResult` interface, in the well-typed form produced by
the deterministic fallback path. -/
structure DecisionResult where
  action : DecisionAction
  reasoning : String
  confidence : Nat
deriving DecidableEq

namespace DecisionAI

/-- `DecisionAI.fallbackDecide`: the deterministic rule table, with the
exact reasoning strings and confidence constants of the source. -/
def fallbackDecide (state : DecisionState) : DecisionResult :=
  match state.priority with
  | Priority.H =>
    if state.risk > 70 then
      ⟨DecisionAction.DEEP, "Critical priority with high risk requires deep analysis", 98⟩
    else
      ⟨DecisionAction.SCAN, "Critical priority address needs immediate scan", 95⟩
  | Priority.M =>
    if state.risk > 60 then
      ⟨DecisionAction.SCAN, "Medium priority with elevated risk warrants scan", 85⟩
    else
      ⟨DecisionAction.SLEEP, "Medium priority with normal risk, will check again later", 80⟩
  | Priority.L =>
    if state.risk > 80 then
      ⟨DecisionAction.SCAN, "Low priority but unusually high risk detected", 75⟩
    else
      ⟨DecisionAction.SLEEP, "Low priority and normal risk, no action needed", 90⟩

end DecisionAI

/-! ## Prioritization (src/server/watsonx.ts) -/

/-- The `PrioritizationResult` interface of watsonx.ts. -/
structure PrioritizationResult where
  priority : Priority
  risk : Nat
  depth : Nat
deriving DecidableEq

/-- JavaScript `ToInt32`: reduce mod `2^32` into the signed range
`[-2^31, 2^31)`. -/
def toInt32 (x : Int) : Int :=
  let m := x % 4294967296
  if m < 2147483648 then m else m - 4294967296

/-- One step of the address hash `((h << 5) - h) + c.charCodeAt(0)`:
`h << 5` coerces to Int32 (`toInt32 (32 * h)`), the subtraction and
addition are exact double arithmetic (all values stay far below `2^53`). -/
def hashStep (h : Int) (c : Nat) : Int := toInt32 (32 * h) - h + c

/-- The reduce over the address characters in `generateMockPrioritization`;
the address is its list of UTF-16 code units. -/
def hashOf (addr : List Nat) : Int := addr.foldl hashStep 0

/-- The `priorityMap` array indexed by `Math.abs(hash) % 3` (always in
range, so the out-of-range arm is never reached). -/
def priorityMap (i : Nat) : Priority :=
  match i with
  | 0 => Priority.H
  | 1 => Priority.M
  | _ => Priority.L

/-- `generateMockPrioritization`: priority from `Math.abs(hash) % 3`,
risk `Math.abs(hash % 100)` (JS `%` truncates toward zero, `Int.tmod`),
depth `Math.abs(hash) % 3 + 1`. -/
def generateMockPrioritization (addr : List Nat) : PrioritizationResult :=
  let hash := hashOf addr
  ⟨priorityMap (hash.natAbs % 3),
   (Int.tmod hash 100).natAbs,
   hash.natAbs % 3 + 1⟩

/-- `prioritize`: the mock path never throws, so the catch arm returning
the Medium/50/2 default is dead in the reference code; `prioritize`
equals the mock generator. -/
def prioritize (addr : List Nat) : PrioritizationResult :=
  generateMockPrioritization addr

/-! ## JSON values and JSON.parse (for the decision model path) -/

/-- JSON values as produced by `JSON.parse` (numbers as exact rationals;
the integral confidences appearing here are exactly representable). -/
inductive Json where
  | null
  | bool (b : Bool)
  | num (q : Rat)
  | str (s : String)
  | arr (elems : List Json)
  | obj (members : List (String × Json))

/-- JSON whitespace (space, tab, line feed, carriage return). -/
def isJsonWs (c : Char) : Bool :=
  c == ' ' || c == '\t' || c == '\n' || c == '\r'

/-- Drop leading JSON whitespace. -/
def skipWs : List Char → List Char
  | [] => []
  | c :: cs => if isJsonWs c then skipWs cs else c :: cs

/-- Numeric value of a list of decimal digit characters. -/
def natOfDigits (ds : List Char) : Nat :=
  ds.foldl (fun a c => a * 10 + (c.toNat - '0'.toNat)) 0

/-- Rational value of a parsed JSON number from its sign, integer
digits, fraction digits and signed decimal exponent. -/
def numValue (neg : Bool) (ids fds : List Char) (e : Int) : Rat :=
  let mantissa : Rat :=
    (natOfDigits ids : Rat) + (natOfDigits fds : Rat) / ((10 : Rat) ^ fds.length)
  let scaled : Rat :=
    if 0 ≤ e then mantissa * ((10 : Rat) ^ e.toNat)
    else mantissa / ((10 : Rat) ^ (-e).toNat)
  if neg then -scaled else scaled

/-- Parse the exponent part after `e`/`E`: optional sign, then at least
one digit. -/
def parseExp (cs : List Char) : Option (Int × List Char) :=
  let (expNeg, cs1) :=
    match cs with
    | '-' :: rest => (true, rest)
    | '+' :: rest => (false, rest)
    | _ => (false, cs)
  let (eds, cs2) := cs1.span Char.isDigit
  match eds with
  | [] => none
  | _ =>
    some ((if expNeg then -(natOfDigits eds : Int) else (natOfDigits eds : Int)), cs2)

/-- Parse a JSON number `-?(0|[1-9][0-9]*)(.[0-9]+)?([eE][+-]?[0-9]+)?`
returning its exact rational value and the remaining input. -/
def parseNumber (cs : List Char) : Option (Rat × List Char) :=
  let (neg, cs1) :=
    match cs with
    | '-' :: rest => (true, rest)
    | _ => (false, cs)
  let (ids, cs2) := cs1.span Char.isDigit
  let withFrac : List Char → List Char → Option (Rat × List Char) := fun fds cs3 =>
    match cs3 with
    | 'e' :: rest => (parseExp rest).map (fun p => (numValue neg ids fds p.1, p.2))
    | 'E' :: rest => (parseExp rest).map (fun p => (numValue neg ids fds p.1, p.2))
    | _ => some (numValue neg ids fds 0, cs3)
  match ids with
  | [] => none
  | '0' :: _ :: _ => none
  | _ =>
    match cs2 with
    | '.' :: rest =>
      let (fds, cs3) := rest.span Char.isDigit
      match fds with
      | [] => none
      | _ => withFrac fds cs3
    | _ => withFrac [] cs2

/-- Parse four hex digits (the `u` escape payload). -/
def parseHex4 : List Char → Option (Nat × List Char)
  | a :: b :: c :: d :: rest =>
    match hexDigitVal? a, hexDigitVal? b, hexDigitVal? c, hexDigitVal? d with
    | some x, some y, some z, some w => some (((x * 16 + y) * 16 + z) * 16 + w, rest)
    | _, _, _, _ => none
  | _ => none

/-- Parse the body of a JSON string after the opening quote, handling
the escape sequences of `JSON.parse` (a lone-surrogate `u` escape is
approximated by the replacement behaviour of `Char.ofNat`). -/
def parseStringBody (fuel : Nat) (acc : List Char) (cs : List Char) :
    Option (String × List Char) :=
  match fuel with
  | 0 => none
  | fuel + 1 =>
    match cs with
    | [] => none
    | '"' :: rest => some (String.mk acc.reverse, rest)
    | '\\' :: e :: rest =>
      match e with
      | '"' => parseStringBody fuel ('"' :: acc) rest
      | '\\' => parseStringBody fuel ('\\' :: acc) rest
      | '/' => parseStringBody fuel ('/' :: acc) rest
      | 'b' => parseStringBody fuel (Char.ofNat 8 :: acc) rest
      | 'f' => parseStringBody fuel (Char.ofNat 12 :: acc) rest
      | 'n' => parseStringBody fuel ('\n' :: acc) rest
      | 'r' => parseStringBody fuel (Char.ofNat 13 :: acc) rest
      | 't' => parseStringBody fuel ('\t' :: acc) rest
      | 'u' =>
        match parseHex4 rest with
        | some (n, rest2) => parseStringBody fuel (Char.ofNat n :: acc) rest2
        | none => none
      | _ => none
    | c :: rest =>
      if c.toNat < 32 then none else parseStringBody fuel (c :: acc) rest

mutual

/-- Parse one JSON value (fuel bounds the recursion depth; callers pass
fuel amply exceeding the input length, so exhaustion is unreachable). -/
def parseVal : Nat → List Char → Option (Json × List Char)
  | 0, _ => none
  | fuel + 1, cs =>
    match skipWs cs with
    | 'n' :: 'u' :: 'l' :: 'l' :: rest => some (Json.null, rest)
    | 't' :: 'r' :: 'u' :: 'e' :: rest => some (Json.bool true, rest)
    | 'f' :: 'a' :: 'l' :: 's' :: 'e' :: rest => some (Json.bool false, rest)
    | '"' :: rest =>
      match parseStringBody (rest.length + 1) [] rest with
      | some (s, rest2) => some (Json.str s, rest2)
      | none => none
    | '[' :: rest =>
      match skipWs rest with
      | ']' :: rest2 => some (Json.arr [], rest2)
      | rest2 =>
        match parseElems fuel rest2 with
        | some (vs, rest3) => some (Json.arr vs, rest3)
        | none => none
    | '{' :: rest =>
      match skipWs rest with
      | '}' :: rest2 => some (Json.obj [], rest2)
      | rest2 =>
        match parseMembers fuel rest2 with
        | some (ms, rest3) => some (Json.obj ms, rest3)
        | none => none
    | other =>
      match parseNumber other with
      | some (q, rest) => some (Json.num q, rest)
      | none => none

/-- Parse the non-empty element list of a JSON array, including the
closing bracket. -/
def parseElems : Nat → List Char → Option (List Json × List Char)
  | 0, _ => none
  | fuel + 1, cs =>
    match parseVal fuel cs with
    | none => none
    | some (v, rest) =>
      match skipWs rest with
      | ',' :: rest2 =>
        match parseElems fuel rest2 with
        | some (vs, rest3) => some (v :: vs, rest3)
        | none => none
      | ']' :: rest2 => some ([v], rest2)
      | _ => none

/-- Parse the non-empty member list of a JSON object, including the
closing brace. -/
def parseMembers : Nat → List Char → Option (List (String × Json) × List Char)
  | 0, _ => none
  | fuel + 1, cs =>
    match skipWs cs with
    | '"' :: rest =>
      match parseStringBody (rest.length + 1) [] rest with
      | none => none
      | some (k, rest2) =>
        match skipWs rest2 with
        | ':' :: rest3 =>
          match parseVal fuel rest3 with
          | none => none
          | some (v, rest4) =>
            match skipWs rest4 with
            | ',' :: rest5 =>
              match parseMembers fuel rest5 with
              | some (ms, rest6) => some ((k, v) :: ms, rest6)
              | none => none
            | '}' :: rest5 => some ([(k, v)], rest5)
            | _ => none
        | _ => none
    | _ => none

end

/-- Model of `JSON.parse`: parse one value and require only trailing
whitespace after it. -/
def Json.parse (s : String) : Option Json :=
  match parseVal (4 * s.data.length + 4) s.data with
  | some (v, rest) => if skipWs rest = [] then some v else none
  | none => none

/-- JavaScript property access `parsed[key]` on a parsed JSON value:
`none` models `undefined` (absent member or non-object receiver); with
duplicate keys `JSON.parse` keeps the last. -/
def Json.getField (j : Json) (key : String) : Option Json :=
  match j with
  | Json.obj members =>
    (members.reverse.find? (fun m => m.1 == key)).map (fun m => m.2)
  | _ => none

/-- Model of `response.match(/\x7b[\s\S]*\x7d/)`: the greedy match runs
from the first `{` to the last `}` provided the former precedes the
latter; otherwise there is no match. -/
def jsonMatch (s : String) : Option String :=
  let cs := s.data
  match cs.findIdx? (fun c => c == '{'), cs.reverse.findIdx? (fun c => c == '}') with
  | some i, some k =>
    let j := cs.length - 1 - k
    if i < j then some (String.mk ((cs.drop i).take (j - i + 1))) else none
  | _, _ => none

/-- The runtime shape of the object `parseDecisionResponse` returns:
each field is whatever `JSON.parse` produced there (`none` =
`undefined`), since the source casts without validating. -/
structure RawDecision where
  action : Option Json
  reasoning : Option Json
  confidence : Option Json

/-- The hardcoded object returned from the catch arm of
`parseDecisionResponse`. -/
def parseErrorDefault : RawDecision :=
  ⟨some (Json.str "SLEEP"),
   some (Json.str "Error parsing AI decision, defaulting to sleep"),
   some (Json.num 0)⟩

/-- Composition of the regex extraction and `JSON.parse` inside the try
arm of `parseDecisionResponse`; `none` is the thrown-and-caught path. -/
def jsonOfResponse (response : String) : Option Json :=
  (jsonMatch response).bind Json.parse

/-- Embedding of a well-typed fallback `DecisionResult` into the runtime
object shape, for comparing the two return paths of `decide`. -/
def rawOfDecision (d : DecisionResult) : RawDecision :=
  ⟨some (Json.str (match d.action with
      | DecisionAction.SCAN => "SCAN"
      | DecisionAction.DEEP => "DEEP"
      | DecisionAction.SLEEP => "SLEEP")),
   some (Json.str d.reasoning),
   some (Json.num d.confidence)⟩

namespace DecisionAI

/-- `DecisionAI.parseDecisionResponse`: extract a JSON object from the
response and read its three fields without validation; any extraction or
parse failure is caught and yields the hardcoded SLEEP/confidence-0
object. -/
def parseDecisionResponse (response : String) : RawDecision :=
  match jsonOfResponse response with
  | some parsed =>
    ⟨parsed.getField "action", parsed.getField "reasoning", parsed.getField "confidence"⟩
  | none => parseErrorDefault

/-- `DecisionAI.decide`: when `WATSONX_API_KEY` is set, call the API and
parse its response (`parseDecisionResponse` itself never throws); only a
rejection of the API call itself falls into the catch and reaches the
deterministic fallback, which is also used when no key is set. -/
def decide (apiKeySet : Bool) (apiResult : Except String String)
    (state : DecisionState) : RawDecision :=
  if apiKeySet then
    match apiResult with
    | Except.ok response => parseDecisionResponse response
    | Except.error _ => rawOfDecision (fallbackDecide state)
  else rawOfDecision (fallbackDecide state)

end DecisionAI

/-! ## Scheduler (src/server/scheduler.ts) -/

/-- Observable per-target events of one scan cycle (console logging and
storage writes). -/
inductive Event where
  | slept (addr : String)
  | vulnStored (addr : String) (t : ScanType) (severity : Nat)
  | scanClean (addr : String)
  | errorLogged (addr : String) (msg : String)
  | cycleErrorLogged (msg : String)
deriving DecidableEq

/-- The slice of a schedule row the loop reads. -/
structure Schedule where
  target : String
  isActive : Bool
deriving DecidableEq

/-- The collaborators `processAddress` and `scanCycle` await, as oracles
that may reject (throw): prioritization, decision, scanner, storage. -/
structure Env where
  schedules : Except String (List Schedule)
  prioritizeR : String → Except String PrioritizationResult
  decideR : DecisionState → Except String DecisionResult
  scanR : String → Except String (Option ScanResult)
  storeR : String → ScanResult → Except String Unit

namespace MainScannerLoop

/-- Body of the try block of `MainScannerLoop.processAddress`:
prioritize, decide, then branch on the action — SLEEP logs and returns;
SCAN and DEEP run the scanner and store any finding. An error from any
awaited step propagates out of the block. -/
def processAddressE (env : Env) (addr : String) : Except String (List Event) := do
  let pr ← env.prioritizeR addr
  let decision ← env.decideR ⟨addr, pr.priority, (pr.risk : Int), (pr.depth : Int), none⟩
  match decision.action with
  | DecisionAction.SLEEP => pure [Event.slept addr]
  | _ => do
    let vulnerability ← env.scanR addr
    match vulnerability with
    | some res => do
      let _ ← env.storeR addr res
      pure [Event.vulnStored addr res.type res.severity]
    | none => pure [Event.scanClean addr]

/-- `MainScannerLoop.processAddress`: the whole body sits in a
try/catch, so the function never rejects — an error is converted into a
logged error event for that address. -/
def processAddress (env : Env) (addr : String) : List Event :=
  match processAddressE env addr with
  | Except.ok evs => evs
  | Except.error msg => [Event.errorLogged addr msg]

/-- The sequential `for` loop over targets with `await`: a rejection of
`stepF` would abort the remaining iterations and propagate. -/
def runTargets (stepF : String → Except String (List Event)) :
    List String → Except String (List Event)
  | [] => Except.ok []
  | addr :: rest =>
    match stepF addr with
    | Except.error e => Except.error e
    | Except.ok evs =>
      match runTargets stepF rest with
      | Except.error e => Except.error e
      | Except.ok more => Except.ok (evs ++ more)

/-- `MainScannerLoop.getAddressesToCheck`: targets of the active
schedules. -/
def getAddressesToCheck (schedules : List Schedule) : List String :=
  (schedules.filter (fun s => s.isActive)).map (fun s => s.target)

/-- `MainScannerLoop.scanCycle`: fetch the active targets and process
each in order; `processAddress` never rejects (its internal catch), so
only a schedules-fetch failure reaches the cycle-level catch, which logs
and returns normally. -/
def scanCycle (env : Env) : List Event :=
  match env.schedules with
  | Except.error msg => [Event.cycleErrorLogged msg]
  | Except.ok schedules =>
    match runTargets (fun addr => Except.ok (processAddress env addr))
        (getAddressesToCheck schedules) with
    | Except.ok evs => evs
    | Except.error msg => [Event.cycleErrorLogged msg]

/-- State of the `MainScannerLoop` object plus its runtime context:
the `isRunning` flag and `interval` handle are the object's fields;
`armed` is the set of interval timers currently registered with the
runtime (appended by `setInterval`, erased by `clearInterval`);
`activeCycles` counts `scanCycle` invocations whose async work has not
yet completed. -/
structure SchedState where
  isRunning : Bool
  interval : Option Nat
  armed : List Nat
  nextId : Nat
  activeCycles : Nat
deriving DecidableEq

/-- Events of the scheduler model: the public `start`/`stop` calls, a
wall-clock firing of an armed interval timer, and completion of one
in-flight cycle's async work. -/
inductive SchedEvent where
  | startEv (intervalSeconds : Nat)
  | stopEv
  | tick (id : Nat)
  | cycleComplete
deriving DecidableEq

/-- One transition of the scheduler model, read off
`src/server/scheduler.ts`: `start` is guarded by `isRunning` and arms a
fresh interval timer; `stop` clears the recorded handle (only that one)
and resets the flag; a `tick` of any armed timer runs the interval
callback `() => { this.scanCycle(); }`, which invokes `scanCycle`
without awaiting it — the tick merely adds an in-flight cycle,
consulting neither `activeCycles` nor any guard; `cycleComplete`
retires one in-flight cycle. -/
def step (s : SchedState) : SchedEvent → SchedState
  | SchedEvent.startEv _ =>
    if s.isRunning then s
    else
      { s with
        isRunning := true
        interval := some s.nextId
        armed := s.armed ++ [s.nextId]
        nextId := s.nextId + 1 }
  | SchedEvent.stopEv =>
    { s with
      isRunning := false
      interval := none
      armed := (match s.interval with
        | some id => s.armed.erase id
        | none => s.armed) }
  | SchedEvent.tick id =>
    if id ∈ s.armed then { s with activeCycles := s.activeCycles + 1 } else s
  | SchedEvent.cycleComplete => { s with activeCycles := s.activeCycles - 1 }

/-- The scheduler as exported (`new MainScannerLoop()`): not running, no
timer armed, no cycle in flight. -/
def initState : SchedState := ⟨false, none, [], 0, 0⟩

/-- Run a sequence of scheduler events from a state. -/
def run (s : SchedState) (evs : List SchedEvent) : SchedState :=
  evs.foldl step s

end MainScannerLoop


/-! ## Concrete instances and auxiliary predicates used by the proofs -/

namespace Scanner

/-- First-match value of key `r` in the counts map (the `Map.get`
semantics; 0 when absent). -/
def cnt : List (String × Nat) → String → Nat
  | [], _ => 0
  | (k, c) :: rest, r => if k = r then c else cnt rest r

end Scanner

/-- Concrete two-signature set sharing the `r` value `"0xa1"`. -/
def dupSigs : List Signature :=
  [⟨"0xa1", "0x01", 27, "h1"⟩, ⟨"0xa1", "0x02", 28, "h2"⟩]

/-- Concrete three-signature set whose `r` values are the arithmetic
progression 100, 200, 300 (decimal numerals, no repetition). -/
def apSigs : List Signature :=
  [⟨"100", "0x00", 27, "h0"⟩,
   ⟨"200", "0x01", 27, "h1"⟩,
   ⟨"300", "0x02", 27, "h2"⟩]

/-- Ten signatures, 4 of them with `r` far below `maxR / 1000`, the
other 6 large and ordered so the second differences leave `[0, 1000)`;
no `r` repeats. -/
def weakSigsA : List Signature :=
  [⟨"1", "0x00", 27, "h0"⟩,
   ⟨"2", "0x01", 27, "h1"⟩,
   ⟨"3", "0x02", 27, "h2"⟩,
   ⟨"4", "0x03", 27, "h3"⟩,
   ⟨"200000000000000000000000000000000000000000000000000000000000000000000000000", "0x04", 27, "h4"⟩,
   ⟨"900000000000000000000000000000000000000000000000000000000000000000000000000", "0x05", 27, "h5"⟩,
   ⟨"300000000000000000000000000000000000000000000000000000000000000000000000000", "0x06", 27, "h6"⟩,
   ⟨"800000000000000000000000000000000000000000000000000000000000000000000000000", "0x07", 27, "h7"⟩,
   ⟨"500000000000000000000000000000000000000000000000000000000000000000000000000", "0x08", 27, "h8"⟩,
   ⟨"600000000000000000000000000000000000000000000000000000000000000000000000000", "0x09", 27, "h9"⟩]

/-- The integer `r` values of `weakSigsA`. -/
def weakRsA : List Nat :=
  [1, 2, 3, 4, 2 * 10 ^ 74, 9 * 10 ^ 74, 3 * 10 ^ 74, 8 * 10 ^ 74, 5 * 10 ^ 74, 6 * 10 ^ 74]

/-- Ten signatures of the same shape with only 2 small `r` values. -/
def weakSigsB : List Signature :=
  [⟨"1", "0x00", 27, "h0"⟩,
   ⟨"2", "0x01", 27, "h1"⟩,
   ⟨"200000000000000000000000000000000000000000000000000000000000000000000000000", "0x02", 27, "h2"⟩,
   ⟨"900000000000000000000000000000000000000000000000000000000000000000000000000", "0x03", 27, "h3"⟩,
   ⟨"300000000000000000000000000000000000000000000000000000000000000000000000000", "0x04", 27, "h4"⟩,
   ⟨"800000000000000000000000000000000000000000000000000000000000000000000000000", "0x05", 27, "h5"⟩,
   ⟨"500000000000000000000000000000000000000000000000000000000000000000000000000", "0x06", 27, "h6"⟩,
   ⟨"600000000000000000000000000000000000000000000000000000000000000000000000000", "0x07", 27, "h7"⟩,
   ⟨"400000000000000000000000000000000000000000000000000000000000000000000000000", "0x08", 27, "h8"⟩,
   ⟨"700000000000000000000000000000000000000000000000000000000000000000000000000", "0x09", 27, "h9"⟩]

/-- The integer `r` values of `weakSigsB`. -/
def weakRsB : List Nat :=
  [1, 2, 2 * 10 ^ 74, 9 * 10 ^ 74, 3 * 10 ^ 74, 8 * 10 ^ 74, 5 * 10 ^ 74, 6 * 10 ^ 74, 4 * 10 ^ 74, 7 * 10 ^ 74]

/-- A decision state used in the C5 analysis: High priority, risk 90,
for which the fallback table would answer DEEP with confidence 98. -/
def highRiskState : DecisionState := ⟨"0xfeed", Priority.H, 90, 1, none⟩

/-- A concrete environment with two active targets in which the scanner
rejects on the first target only. -/
def env0 : Env :=
  ⟨Except.ok [⟨"0xaaa", true⟩, ⟨"0xbbb", true⟩],
   fun _ => Except.ok ⟨Priority.H, 90, 1⟩,
   fun _ => Except.ok ⟨DecisionAction.SCAN, "go", 95⟩,
   fun addr => if addr = "0xaaa" then Except.error "scanner blew up" else Except.ok none,
   fun _ _ => Except.ok ()⟩

namespace MainScannerLoop

/-- At most one interval timer is ever registered: the reachable states
of the scheduler have either no armed timer (not running) or exactly the
one recorded in `interval` (running). -/
def Armed1 (s : SchedState) : Prop :=
  (s.isRunning = false ∧ s.interval = none ∧ s.armed = []) ∨
  (∃ id, s.isRunning = true ∧ s.interval = some id ∧ s.armed = [id])

end MainScannerLoop

/-! ## Lemmas about the nonce-reuse counting map -/

namespace Scanner

theorem cnt_bump (m : List (String × Nat)) (q r : String) :
    cnt (bump m q) r = if q = r then cnt m r + 1 else cnt m r := by
  induction m with
  | nil => by_cases h : q = r <;> simp [bump, cnt, h]
  | cons p rest ih =>
    obtain ⟨k, c⟩ := p
    by_cases hkq : k = q
    · subst hkq
      by_cases hkr : k = r <;> simp [bump, cnt, hkr]
    · by_cases hqr : q = r
      · subst hqr
        simp [bump, cnt, hkq, ih]
      · by_cases hkr : k = r
        · subst hkr
          simp [bump, cnt, hkq, ih, hqr]
        · simp [bump, cnt, hkq, hkr, ih, hqr]

theorem countR_cons (r : String) (sig : Signature) (rest : List Signature) :
    countR r (sig :: rest) = (if sig.r = r then 1 else 0) + countR r rest := by
  by_cases h : sig.r = r <;> simp [countR, List.filter_cons, h] <;> omega

theorem cnt_foldl (sigs : List Signature) :
    ∀ (m : List (String × Nat)) (r : String),
      cnt (sigs.foldl (fun m sig => bump m sig.r) m) r = cnt m r + countR r sigs := by
  induction sigs with
  | nil => intro m r; simp [countR]
  | cons sig rest ih =>
    intro m r
    simp only [List.foldl_cons]
    rw [ih, cnt_bump, countR_cons]
    by_cases h : sig.r = r <;> simp [h] <;> omega

theorem cnt_countsOf (sigs : List Signature) (r : String) :
    cnt (countsOf sigs) r = countR r sigs := by
  have h := cnt_foldl sigs [] r
  simpa [countsOf, cnt] using h

theorem mem_keys_bump (m : List (String × Nat)) (q x : String)
    (h : x ∈ (bump m q).map Prod.fst) : x ∈ m.map Prod.fst ∨ x = q := by
  induction m with
  | nil => simpa [bump] using h
  | cons p rest ih =>
    obtain ⟨k, c⟩ := p
    by_cases hkq : k = q
    · subst hkq
      simpa [bump] using Or.inl h
    · simp only [bump, if_neg hkq, List.map_cons, List.mem_cons] at h ⊢
      rcases h with h | h
      · exact Or.inl (Or.inl h)
      · rcases ih h with h2 | h2
        · exact Or.inl (Or.inr h2)
        · exact Or.inr h2

theorem nodup_keys_bump (m : List (String × Nat)) (q : String)
    (h : (m.map Prod.fst).Nodup) : ((bump m q).map Prod.fst).Nodup := by
  induction m with
  | nil => simp [bump]
  | cons p rest ih =>
    obtain ⟨k, c⟩ := p
    simp only [List.map_cons, List.nodup_cons] at h
    by_cases hkq : k = q
    · subst hkq
      simpa [bump] using h
    · simp only [bump, if_neg hkq, List.map_cons, List.nodup_cons]
      refine ⟨?_, ih h.2⟩
      intro hmem
      rcases mem_keys_bump rest q k hmem with h2 | h2
      · exact h.1 h2
      · exact hkq h2

theorem nodup_keys_foldl (sigs : List Signature) :
    ∀ m : List (String × Nat), (m.map Prod.fst).Nodup →
      ((sigs.foldl (fun m sig => bump m sig.r) m).map Prod.fst).Nodup := by
  induction sigs with
  | nil => intro m h; simpa using h
  | cons sig rest ih =>
    intro m h
    simp only [List.foldl_cons]
    exact ih _ (nodup_keys_bump m sig.r h)

theorem nodup_keys_countsOf (sigs : List Signature) :
    ((countsOf sigs).map Prod.fst).Nodup :=
  nodup_keys_foldl sigs [] (by simp)

theorem cnt_of_mem (m : List (String × Nat)) (h : (m.map Prod.fst).Nodup)
    (k : String) (c : Nat) (hm : (k, c) ∈ m) : cnt m k = c := by
  induction m with
  | nil => cases hm
  | cons p rest ih =>
    obtain ⟨k0, c0⟩ := p
    simp only [List.map_cons, List.nodup_cons] at h
    rcases List.mem_cons.mp hm with he | ht
    · cases he
      simp [cnt]
    · have hk : k0 ≠ k := by
        intro e
        subst e
        exact h.1 (List.mem_map_of_mem Prod.fst ht)
      simp only [cnt, if_neg hk]
      exact ih h.2 ht

theorem mem_of_cnt_pos (m : List (String × Nat)) (k : String)
    (h : 0 < cnt m k) : (k, cnt m k) ∈ m := by
  induction m with
  | nil => simp [cnt] at h
  | cons p rest ih =>
    obtain ⟨k0, c0⟩ := p
    by_cases hk : k0 = k
    · subst hk
      simp [cnt]
    · simp only [cnt, if_neg hk] at h ⊢
      exact List.mem_cons_of_mem _ (ih h)

end Scanner

/-- C1: for every signature set of size at least 2 in which some `r`
value is shared by at least two signatures, `scan` (on that signature
set) returns a nonce-reuse finding of severity 95, whatever the `s`
values are, whose detail names a repeated `r` (truncated to 10
characters) together with the number of signatures sharing exactly that
`r`. -/
theorem scan_reports_nonce_reuse (sigs : List Signature)
    (h2 : 2 ≤ sigs.length) (hdup : ∃ r, 2 ≤ countR r sigs) :
    ∃ r c, 2 ≤ c ∧ c = countR r sigs ∧
      Scanner.scanSigs sigs =
        Except.ok (some ⟨ScanType.nonce_reuse, Scanner.nonceDetail r c, 95⟩) := by
  obtain ⟨r0, hr0⟩ := hdup
  have hcnt : Scanner.cnt (Scanner.countsOf sigs) r0 = countR r0 sigs :=
    Scanner.cnt_countsOf sigs r0
  have hmem : (r0, Scanner.cnt (Scanner.countsOf sigs) r0) ∈ Scanner.countsOf sigs :=
    Scanner.mem_of_cnt_pos _ _ (by omega)
  have hfind : ∃ p, (Scanner.countsOf sigs).find? (fun p => decide (1 < p.2)) = some p := by
    cases hf : (Scanner.countsOf sigs).find? (fun p => decide (1 < p.2)) with
    | some p => exact ⟨p, rfl⟩
    | none =>
      have hnone := List.find?_eq_none.mp hf _ hmem
      simp only [decide_eq_true_eq] at hnone
      omega
  obtain ⟨p, hp⟩ := hfind
  have hppred : 1 < p.2 := by
    have h := List.find?_some hp
    simpa using h
  have hpmem : p ∈ Scanner.countsOf sigs := List.mem_of_find?_eq_some hp
  have hpc : Scanner.cnt (Scanner.countsOf sigs) p.1 = p.2 :=
    Scanner.cnt_of_mem _ (Scanner.nodup_keys_countsOf sigs) p.1 p.2 hpmem
  have hc : p.2 = countR p.1 sigs := by
    rw [← Scanner.cnt_countsOf sigs p.1]
    exact hpc.symm
  refine ⟨p.1, p.2, by omega, hc, ?_⟩
  have hnr : Scanner.nonceReuse sigs =
      some ⟨ScanType.nonce_reuse, Scanner.nonceDetail p.1 p.2, 95⟩ := by
    simp [Scanner.nonceReuse, hp]
  simp [Scanner.scanSigs, hnr, Nat.not_lt.mpr h2]

/-- Witness for C1 at a concrete signature pair with a repeated `r`. -/
theorem scan_reports_nonce_reuse_witness :
    2 ≤ dupSigs.length ∧ 2 ≤ countR "0xa1" dupSigs ∧
      ∃ r c, 2 ≤ c ∧ c = countR r dupSigs ∧
        Scanner.scanSigs dupSigs =
          Except.ok (some ⟨ScanType.nonce_reuse, Scanner.nonceDetail r c, 95⟩) :=
  ⟨by decide, by decide,
   scan_reports_nonce_reuse dupSigs (by decide) ⟨"0xa1", by decide⟩⟩

/-- C9: the built-in signature source ignores the address and always
returns the two hardcoded mock signatures, which share one `r`; hence
for every address `scan` returns the same nonce-reuse finding of
severity 95, and no input ever reaches the polynomial, weak-nonce or
no-finding branches. -/
theorem scan_mock_always_nonce_reuse (addr : String) :
    Scanner.scan addr =
      Except.ok (some ⟨ScanType.nonce_reuse,
        "Found 2 signatures with same R value (0x12345678...). Private key recovery is possible.",
        95⟩) := rfl

/-! ## Lemmas for the polynomial and weak-nonce checks -/

theorem rIntsOf_length (sigs : List Signature) :
    ∀ rs, Scanner.rIntsOf sigs = Except.ok rs → rs.length = sigs.length := by
  induction sigs with
  | nil =>
    intro rs h
    injection h with h2
    simp [← h2]
  | cons sig rest ih =>
    intro rs h
    simp only [Scanner.rIntsOf] at h
    cases hj : jsBigInt? sig.r with
    | none => rw [hj] at h; simp at h
    | some n =>
      rw [hj] at h
      cases hr : Scanner.rIntsOf rest with
      | error e => rw [hr] at h; simp at h
      | ok ns =>
        rw [hr] at h
        injection h with h2
        simp [← h2, ih ns hr]

theorem diffsOf_length (l : List Int) :
    (Scanner.diffsOf l).length = l.length - 1 := by
  induction l with
  | nil => simp [Scanner.diffsOf]
  | cons a tail ih =>
    cases tail with
    | nil => simp [Scanner.diffsOf]
    | cons b rest =>
      simp only [Scanner.diffsOf, List.length_cons] at ih ⊢
      omega

theorem countR_le_one (sigs : List Signature)
    (h : (sigs.map (fun sig => sig.r)).Nodup) (r : String) : countR r sigs ≤ 1 := by
  induction sigs with
  | nil => simp [countR]
  | cons sig rest ih =>
    simp only [List.map_cons, List.nodup_cons] at h
    rw [Scanner.countR_cons]
    by_cases hr : sig.r = r
    · subst hr
      have h0 : countR sig.r rest = 0 := by
        by_contra hne
        have hp : 0 < (rest.filter (fun sig2 => decide (sig2.r = sig.r))).length :=
          Nat.pos_of_ne_zero hne
        obtain ⟨x, hx⟩ := List.exists_mem_of_ne_nil _ (List.length_pos.mp hp)
        have hx2 := List.mem_filter.mp hx
        exact h.1 (List.mem_map.mpr ⟨x, hx2.1, by simpa using hx2.2⟩)
      simp [h0]
    · simp only [if_neg hr, Nat.zero_add]
      exact ih h.2

theorem nonceReuse_eq_none (sigs : List Signature)
    (h : (sigs.map (fun sig => sig.r)).Nodup) : Scanner.nonceReuse sigs = none := by
  cases hf : (Scanner.countsOf sigs).find? (fun p => decide (1 < p.2)) with
  | none => simp [Scanner.nonceReuse, hf]
  | some p =>
    exfalso
    have hpred : 1 < p.2 := by
      have h2 := List.find?_some hf
      simpa using h2
    have hmem := List.mem_of_find?_eq_some hf
    have hcnt : Scanner.cnt (Scanner.countsOf sigs) p.1 = p.2 :=
      Scanner.cnt_of_mem _ (Scanner.nodup_keys_countsOf sigs) p.1 p.2 hmem
    rw [Scanner.cnt_countsOf] at hcnt
    have hle := countR_le_one sigs h p.1
    omega

/-- C6: for signature sets of size at least 3 whose `r` values do not
repeat (so the nonce-reuse check cannot fire) and whose `r` values all
convert to integers `rs`, `scan` returns the polynomial-attack finding
of severity 85 exactly when every second-order difference of the `r`
sequence lies in the half-open interval `[0, 1000)`. -/
theorem scan_polynomial_attack_iff (sigs : List Signature) (rs : List Nat)
    (h3 : 3 ≤ sigs.length)
    (hnodup : (sigs.map (fun sig => sig.r)).Nodup)
    (hrs : Scanner.rIntsOf sigs = Except.ok rs) :
    (Scanner.scanSigs sigs =
        Except.ok (some ⟨ScanType.polynomial_attack, Scanner.polyDetail, 85⟩) ↔
      (Scanner.diffsOf (Scanner.diffsOf (rs.map Int.ofNat))).all
        Scanner.polyOk = true) := by
  have hnr := nonceReuse_eq_none sigs hnodup
  have hlen : rs.length = sigs.length := rIntsOf_length sigs rs hrs
  have hdlen : (Scanner.diffsOf (rs.map Int.ofNat)).length = sigs.length - 1 := by
    rw [diffsOf_length, List.length_map, hlen]
  have hlt3 : ¬ sigs.length < 3 := by omega
  have hlt2 : ¬ sigs.length < 2 := by omega
  have hd2 : 2 ≤ (Scanner.diffsOf (rs.map Int.ofNat)).length := by omega
  have hpa : Scanner.polynomialAttack sigs =
      (if (Scanner.diffsOf (Scanner.diffsOf (rs.map Int.ofNat))).all
            Scanner.polyOk = true
       then Except.ok (some ⟨ScanType.polynomial_attack, Scanner.polyDetail, 85⟩)
       else Except.ok none) := by
    have hpa0 : Scanner.polynomialAttack sigs =
        (if 2 ≤ (Scanner.diffsOf (rs.map Int.ofNat)).length then
          (if (Scanner.diffsOf (Scanner.diffsOf (rs.map Int.ofNat))).all
                Scanner.polyOk = true
           then Except.ok (some ⟨ScanType.polynomial_attack, Scanner.polyDetail, 85⟩)
           else Except.ok none)
         else Except.ok none) := by
      unfold Scanner.polynomialAttack
      rw [if_neg hlt3, hrs]
    rw [if_pos hd2] at hpa0
    exact hpa0
  by_cases hall : (Scanner.diffsOf (Scanner.diffsOf (rs.map Int.ofNat))).all
      Scanner.polyOk = true
  · rw [if_pos hall] at hpa
    have hscan : Scanner.scanSigs sigs =
        Except.ok (some ⟨ScanType.polynomial_attack, Scanner.polyDetail, 85⟩) := by
      unfold Scanner.scanSigs
      rw [if_neg hlt2, hnr, hpa]
    exact ⟨fun _ => hall, fun _ => hscan⟩
  · rw [if_neg hall] at hpa
    have hsw : Scanner.scanSigs sigs = Scanner.weakNonce sigs := by
      unfold Scanner.scanSigs
      rw [if_neg hlt2, hnr, hpa]
    have hwne : Scanner.weakNonce sigs ≠
        Except.ok (some ⟨ScanType.polynomial_attack, Scanner.polyDetail, 85⟩) := by
      unfold Scanner.weakNonce
      rw [hrs]
      intro hcontra
      split at hcontra
      · simp at hcontra
      · split at hcontra <;> simp at hcontra
    rw [hsw]
    constructor
    · intro heq
      exact absurd heq hwne
    · intro hcontra
      exact absurd hcontra hall

/-- C7: for signature sets of size at least 2 on which neither the
nonce-reuse nor the polynomial check fires and whose `r` values convert
to integers `rs`, `scan` returns the weak-nonce finding of severity 70
exactly when the number of signatures with `r` below `maxR / 1000`
exceeds 30% of the sample, and returns no finding otherwise. -/
theorem scan_weak_nonce_iff (sigs : List Signature) (rs : List Nat)
    (h2 : 2 ≤ sigs.length)
    (hnr : Scanner.nonceReuse sigs = none)
    (hpa : Scanner.polynomialAttack sigs = Except.ok none)
    (hrs : Scanner.rIntsOf sigs = Except.ok rs) :
    (Scanner.scanSigs sigs =
        Except.ok (some ⟨ScanType.weak_nonce,
          Scanner.weakDetail (Scanner.weakCountOf rs) sigs.length, 70⟩) ↔
      3 * sigs.length < 10 * Scanner.weakCountOf rs) ∧
    (¬ 3 * sigs.length < 10 * Scanner.weakCountOf rs →
      Scanner.scanSigs sigs = Except.ok none) := by
  have hlt2 : ¬ sigs.length < 2 := by omega
  have hsw : Scanner.scanSigs sigs = Scanner.weakNonce sigs := by
    simp [Scanner.scanSigs, hlt2, hnr, hpa]
  have hwn : Scanner.weakNonce sigs =
      (if 10 * Scanner.weakCountOf rs > 3 * sigs.length then
        Except.ok (some ⟨ScanType.weak_nonce,
          Scanner.weakDetail (Scanner.weakCountOf rs) sigs.length, 70⟩)
       else Except.ok none) := by
    simp [Scanner.weakNonce, hrs]
  refine ⟨⟨?_, ?_⟩, ?_⟩
  · intro heq
    by_contra hnot
    rw [hsw, hwn, if_neg hnot] at heq
    simp at heq
  · intro hlt
    rw [hsw, hwn, if_pos hlt]
  · intro hnot
    rw [hsw, hwn, if_neg hnot]

/-- Witness for C6: on the 100/200/300 progression the second
differences are all zero, so `scan` reports the polynomial attack. -/
theorem scan_polynomial_attack_witness :
    Scanner.rIntsOf apSigs = Except.ok [100, 200, 300] ∧
    Scanner.scanSigs apSigs =
      Except.ok (some ⟨ScanType.polynomial_attack, Scanner.polyDetail, 85⟩) :=
  ⟨rfl,
   (scan_polynomial_attack_iff apSigs [100, 200, 300] (by decide) (by decide)
      rfl).mpr (by decide)⟩

/-- Witness for C7: 4 weak nonces out of 10 (40% > 30%) yield the
weak-nonce finding; 2 out of 10 (20%) yield no finding. -/
theorem scan_weak_nonce_witness :
    Scanner.scanSigs weakSigsA =
      Except.ok (some ⟨ScanType.weak_nonce,
        "4 out of 10 signatures use low-entropy nonces.", 70⟩) ∧
    Scanner.scanSigs weakSigsB = Except.ok none :=
  ⟨((scan_weak_nonce_iff weakSigsA weakRsA (by decide) rfl rfl rfl).1).mpr
      (by decide),
   (scan_weak_nonce_iff weakSigsB weakRsB (by decide) rfl rfl rfl).2
      (by decide)⟩

/-- C4: the fallback decision table, total and deterministic by
construction, reproduces the contractual rule table exactly, with strict
greater-than thresholds. -/
theorem fallback_decision_table (st : DecisionState) :
    (st.priority = Priority.H →
      (70 < st.risk →
        DecisionAI.fallbackDecide st =
          ⟨DecisionAction.DEEP, "Critical priority with high risk requires deep analysis", 98⟩) ∧
      (st.risk ≤ 70 →
        DecisionAI.fallbackDecide st =
          ⟨DecisionAction.SCAN, "Critical priority address needs immediate scan", 95⟩)) ∧
    (st.priority = Priority.M →
      (60 < st.risk →
        DecisionAI.fallbackDecide st =
          ⟨DecisionAction.SCAN, "Medium priority with elevated risk warrants scan", 85⟩) ∧
      (st.risk ≤ 60 →
        DecisionAI.fallbackDecide st =
          ⟨DecisionAction.SLEEP, "Medium priority with normal risk, will check again later", 80⟩)) ∧
    (st.priority = Priority.L →
      (80 < st.risk →
        DecisionAI.fallbackDecide st =
          ⟨DecisionAction.SCAN, "Low priority but unusually high risk detected", 75⟩) ∧
      (st.risk ≤ 80 →
        DecisionAI.fallbackDecide st =
          ⟨DecisionAction.SLEEP, "Low priority and normal risk, no action needed", 90⟩)) := by
  refine ⟨fun hp => ⟨fun hr => ?_, fun hr => ?_⟩,
          fun hp => ⟨fun hr => ?_, fun hr => ?_⟩,
          fun hp => ⟨fun hr => ?_, fun hr => ?_⟩⟩ <;>
    simp only [DecisionAI.fallbackDecide, hp] <;>
    first
      | rw [if_pos hr]
      | rw [if_neg (by omega)]

/-- Witness for C4 at the highlighted boundary: priority High with risk
exactly 70 selects SCAN with confidence 95, not DEEP. -/
theorem fallback_decision_table_witness :
    DecisionAI.fallbackDecide ⟨"0xboundary", Priority.H, 70, 1, none⟩ =
      ⟨DecisionAction.SCAN, "Critical priority address needs immediate scan", 95⟩ :=
  ((fallback_decision_table ⟨"0xboundary", Priority.H, 70, 1, none⟩).1 rfl).2
    (by decide)

/-- The truncating remainder by 100 has magnitude at most 99. -/
theorem natAbs_tmod_hundred (a : Int) : (Int.tmod a 100).natAbs ≤ 99 := by
  cases a with
  | ofNat m =>
    have h : (Int.tmod (Int.ofNat m) 100).natAbs = m % 100 := rfl
    rw [h]
    have hm := Nat.mod_lt m (show 0 < 100 by decide)
    omega
  | negSucc m =>
    have h : Int.tmod (Int.negSucc m) 100 = -Int.ofNat ((m + 1) % 100) := rfl
    rw [h, Int.natAbs_neg]
    have h2 : (Int.ofNat ((m + 1) % 100)).natAbs = (m + 1) % 100 := rfl
    rw [h2]
    have hm := Nat.mod_lt (m + 1) (show 0 < 100 by decide)
    omega

/-- C10: in the offline mock prioritization the priority tier and the
analysis depth come from the same residue `abs(hash) % 3`, so they are
rigidly coupled (H exactly with depth 1, M with 2, L with 3), and the
risk score `abs(hash % 100)` always lies in `[0, 99]`. -/
theorem mock_prioritization_coupling (addr : List Nat) :
    ((generateMockPrioritization addr).priority = Priority.H ↔
      (generateMockPrioritization addr).depth = 1) ∧
    ((generateMockPrioritization addr).priority = Priority.M ↔
      (generateMockPrioritization addr).depth = 2) ∧
    ((generateMockPrioritization addr).priority = Priority.L ↔
      (generateMockPrioritization addr).depth = 3) ∧
    (generateMockPrioritization addr).risk ≤ 99 := by
  have h3 : (hashOf addr).natAbs % 3 = 0 ∨ (hashOf addr).natAbs % 3 = 1 ∨
      (hashOf addr).natAbs % 3 = 2 := by omega
  rcases h3 with h | h | h <;>
    simp [generateMockPrioritization, priorityMap, h,
      natAbs_tmod_hundred (hashOf addr)]

/-- Counterexample to C5: when the model path is taken and the response
contains no JSON object, `decide` does not return the fallback-table
decision — `parseDecisionResponse` swallows the parse failure and
returns the hardcoded SLEEP decision with confidence 0 instead, while
the fallback for this state is DEEP with confidence 98. -/
theorem decide_parse_failure_counterexample :
    jsonOfResponse "The decision model is warming up, please retry." = none ∧
    DecisionAI.decide true
        (Except.ok "The decision model is warming up, please retry.")
        highRiskState ≠
      rawOfDecision (DecisionAI.fallbackDecide highRiskState) := by
  refine ⟨rfl, ?_⟩
  intro h
  have h1 : DecisionAI.decide true
      (Except.ok "The decision model is warming up, please retry.")
      highRiskState = parseErrorDefault := rfl
  have h2 : rawOfDecision (DecisionAI.fallbackDecide highRiskState) =
      ⟨some (Json.str "DEEP"),
       some (Json.str "Critical priority with high risk requires deep analysis"),
       some (Json.num 98)⟩ := rfl
  rw [h1, h2] at h
  have h3 := congrArg RawDecision.action h
  have h4 : some (Json.str "SLEEP") = some (Json.str "DEEP") := h3
  injection h4 with h5
  injection h5 with h6
  exact absurd h6 (by decide)

/-- C5 (amended): when the model path is taken and the response fails to
parse, `decide` returns the hardcoded SLEEP/confidence-0 parse-error
object, not the fallback table; the deterministic fallback table is used
exactly when the API call itself rejects or no API key is configured. -/
theorem decide_parse_failure_default (st : DecisionState) (response : String)
    (h : jsonOfResponse response = none) :
    DecisionAI.decide true (Except.ok response) st = parseErrorDefault ∧
    (∀ msg : String, DecisionAI.decide true (Except.error msg) st =
      rawOfDecision (DecisionAI.fallbackDecide st)) ∧
    (∀ res : Except String String, DecisionAI.decide false res st =
      rawOfDecision (DecisionAI.fallbackDecide st)) := by
  refine ⟨?_, fun msg => rfl, fun res => rfl⟩
  simp [DecisionAI.decide, DecisionAI.parseDecisionResponse, h]

/-- Witness for the amended C5 at a concrete unparsable response. -/
theorem decide_parse_failure_default_witness :
    jsonOfResponse "model timeout" = none ∧
    DecisionAI.decide true (Except.ok "model timeout")
        ⟨"0x01", Priority.M, 10, 2, none⟩ = parseErrorDefault :=
  ⟨rfl,
   (decide_parse_failure_default ⟨"0x01", Priority.M, 10, 2, none⟩
      "model timeout" rfl).1⟩

/-! ## Scheduler theorems -/

namespace MainScannerLoop

/-- The per-target step the cycle loop actually runs never rejects
(the try/catch sits inside `processAddress`), so the loop visits every
target and returns normally. -/
theorem runTargets_ok (env : Env) (ts : List String) :
    runTargets (fun addr => Except.ok (processAddress env addr)) ts =
      Except.ok ((ts.map (processAddress env)).join) := by
  induction ts with
  | nil => rfl
  | cons a rest ih =>
    simp only [runTargets, ih, List.map_cons, List.join]
    rfl

/-- C2: if processing target `t` of the cycle raises exception `ex`,
the exception is caught and logged for `t`, every target of the cycle
(including those after `t`) still contributes its processing events in
order, and the cycle returns normally so the interval timer's next
firing proceeds. -/
theorem cycle_failure_isolation (env : Env) (scheds : List Schedule)
    (hs : env.schedules = Except.ok scheds) (t ex : String)
    (ht : t ∈ getAddressesToCheck scheds)
    (hex : processAddressE env t = Except.error ex) :
    scanCycle env = ((getAddressesToCheck scheds).map (processAddress env)).join ∧
    processAddress env t = [Event.errorLogged t ex] ∧
    Event.errorLogged t ex ∈ scanCycle env := by
  have hrun := runTargets_ok env (getAddressesToCheck scheds)
  have hcycle : scanCycle env =
      ((getAddressesToCheck scheds).map (processAddress env)).join := by
    simp only [scanCycle, hs, hrun]
  have hpa : processAddress env t = [Event.errorLogged t ex] := by
    unfold processAddress
    rw [hex]
  refine ⟨hcycle, hpa, ?_⟩
  rw [hcycle]
  refine List.mem_join.mpr ⟨processAddress env t, List.mem_map_of_mem _ ht, ?_⟩
  rw [hpa]
  simp

end MainScannerLoop

/-- Witness for C2: with the first of two targets throwing, the cycle
logs the error for it and still scans the second target cleanly. -/
theorem cycle_failure_isolation_witness :
    MainScannerLoop.scanCycle env0 =
      [Event.errorLogged "0xaaa" "scanner blew up", Event.scanClean "0xbbb"] ∧
    Event.errorLogged "0xaaa" "scanner blew up" ∈ MainScannerLoop.scanCycle env0 :=
  ⟨(MainScannerLoop.cycle_failure_isolation env0 _ rfl "0xaaa" "scanner blew up"
      (by decide) rfl).1,
   (MainScannerLoop.cycle_failure_isolation env0 _ rfl "0xaaa" "scanner blew up"
      (by decide) rfl).2.2⟩

namespace MainScannerLoop

/-- C3 counterexample: from the started scheduler, a timer tick arrives
while the cycle spawned by the previous tick is still in flight
(`activeCycles = 1`, no `cycleComplete` in between), and the tick starts
a second overlapping cycle (`activeCycles = 2`): nothing derives the
firing from the previous cycle's completion and no flag guards cycle
re-entry, contradicting the claimed non-overlap. -/
theorem scheduler_overlap_counterexample :
    (run initState [SchedEvent.startEv 30, SchedEvent.tick 0]).activeCycles = 1 ∧
    (step (run initState [SchedEvent.startEv 30, SchedEvent.tick 0])
        (SchedEvent.tick 0)).activeCycles = 2 :=
  ⟨rfl, rfl⟩

/-- C3 (amended): the loop is driven by a plain wall-clock `setInterval`
whose callback invokes `scanCycle` without awaiting it; a tick of an
armed timer always starts one more in-flight cycle, regardless of how
many cycles are still running — overlap is not prevented; the
`isRunning` flag only guards `start` re-entry. -/
theorem tick_fires_regardless_of_active_cycles (s : SchedState) (id : Nat)
    (h : id ∈ s.armed) :
    step s (SchedEvent.tick id) = { s with activeCycles := s.activeCycles + 1 } := by
  simp [step, h]

/-- Witness for the amended C3: a tick arriving with 5 cycles already in
flight starts a sixth. -/
theorem tick_fires_regardless_witness :
    step ⟨true, some 3, [3], 4, 5⟩ (SchedEvent.tick 3) = ⟨true, some 3, [3], 4, 6⟩ :=
  tick_fires_regardless_of_active_cycles ⟨true, some 3, [3], 4, 5⟩ 3 (by decide)

theorem armed1_init : Armed1 initState := Or.inl ⟨rfl, rfl, rfl⟩

theorem step_tick_fields (s : SchedState) (id : Nat) :
    (step s (SchedEvent.tick id)).isRunning = s.isRunning ∧
    (step s (SchedEvent.tick id)).interval = s.interval ∧
    (step s (SchedEvent.tick id)).armed = s.armed := by
  simp only [step]
  split <;> simp

theorem armed1_step (s : SchedState) (e : SchedEvent) (h : Armed1 s) :
    Armed1 (step s e) := by
  cases e with
  | startEv k =>
    rcases h with ⟨h1, h2, h3⟩ | ⟨id, h1, h2, h3⟩
    · refine Or.inr ⟨s.nextId, ?_, ?_, ?_⟩ <;> simp [step, h1, h3]
    · refine Or.inr ⟨id, ?_, ?_, ?_⟩ <;> simp [step, h1, h2, h3]
  | stopEv =>
    rcases h with ⟨h1, h2, h3⟩ | ⟨id, h1, h2, h3⟩
    · refine Or.inl ⟨?_, ?_, ?_⟩ <;> simp [step, h2, h3]
    · refine Or.inl ⟨?_, ?_, ?_⟩ <;> simp [step, h2, h3]
  | tick id2 =>
    obtain ⟨f1, f2, f3⟩ := step_tick_fields s id2
    rcases h with ⟨h1, h2, h3⟩ | ⟨id, h1, h2, h3⟩
    · exact Or.inl ⟨by rw [f1, h1], by rw [f2, h2], by rw [f3, h3]⟩
    · exact Or.inr ⟨id, by rw [f1, h1], by rw [f2, h2], by rw [f3, h3]⟩
  | cycleComplete =>
    rcases h with ⟨h1, h2, h3⟩ | ⟨id, h1, h2, h3⟩
    · exact Or.inl ⟨h1, h2, h3⟩
    · exact Or.inr ⟨id, h1, h2, h3⟩

theorem armed1_run (evs : List SchedEvent) :
    ∀ s : SchedState, Armed1 s → Armed1 (run s evs) := by
  induction evs with
  | nil => intro s h; exact h
  | cons e rest ih => intro s h; exact ih _ (armed1_step s e h)

/-- C8: the scheduler state machine: a second `start` while running is a
no-op; in every reachable run from the initial state at most one timer
is armed; `stop` is idempotent; and `stop` followed by `start` leaves
the loop running with an armed timer whose ticks fire cycles again. -/
theorem scheduler_start_stop_protocol :
    (∀ (s : SchedState) (k k2 : Nat),
      step (step s (SchedEvent.startEv k)) (SchedEvent.startEv k2) =
        step s (SchedEvent.startEv k)) ∧
    (∀ evs : List SchedEvent, (run initState evs).armed.length ≤ 1) ∧
    (∀ s : SchedState,
      step (step s SchedEvent.stopEv) SchedEvent.stopEv = step s SchedEvent.stopEv) ∧
    (∀ (s : SchedState) (k : Nat),
      (step (step s SchedEvent.stopEv) (SchedEvent.startEv k)).isRunning = true ∧
      ∃ id, (step (step s SchedEvent.stopEv) (SchedEvent.startEv k)).interval = some id ∧
        id ∈ (step (step s SchedEvent.stopEv) (SchedEvent.startEv k)).armed ∧
        (step (step (step s SchedEvent.stopEv) (SchedEvent.startEv k))
            (SchedEvent.tick id)).activeCycles =
          (step (step s SchedEvent.stopEv) (SchedEvent.startEv k)).activeCycles + 1) := by
  refine ⟨?_, ?_, ?_, ?_⟩
  · intro s k k2
    by_cases hr : s.isRunning <;> simp [step, hr]
  · intro evs
    rcases armed1_run evs initState armed1_init with ⟨_, _, h3⟩ | ⟨id, _, _, h3⟩ <;>
      simp [h3]
  · intro s
    simp [step]
  · intro s k
    refine ⟨by simp [step], (step s SchedEvent.stopEv).nextId, ?_, ?_, ?_⟩ <;>
      simp [step]

end MainScannerLoop
